import Mathlib

/-!
Verification of the scene-generation and exposure-normalization code of the
polish repository (create_dataset/scene.go) and of the ReLU tensor layer
(polish/nn/simple_ops.go).  Real-valued quantities are modelled with `ℚ`;
every random sample drawn by the code is an explicit parameter constrained
to the range the random source guarantees (`rand.Float64` yields `[0,1)`).
-/

namespace Polish

/-- A 3-component point/vector, mirroring `model3d.Coord3D`. -/
structure Coord3D where
  x : ℚ
  y : ℚ
  z : ℚ
deriving DecidableEq

/-- Componentwise addition (`Coord3D.Add`). -/
def Coord3D.add (u v : Coord3D) : Coord3D :=
  ⟨u.x + v.x, u.y + v.y, u.z + v.z⟩

/-- Componentwise subtraction (`Coord3D.Sub`). -/
def Coord3D.sub (u v : Coord3D) : Coord3D :=
  ⟨u.x - v.x, u.y - v.y, u.z - v.z⟩

/-- Componentwise product (`Coord3D.Mul`). -/
def Coord3D.mul (u v : Coord3D) : Coord3D :=
  ⟨u.x * v.x, u.y * v.y, u.z * v.z⟩

/-- Scaling by a scalar (`Coord3D.Scale`). -/
def Coord3D.smul (s : ℚ) (v : Coord3D) : Coord3D :=
  ⟨s * v.x, s * v.y, s * v.z⟩

/-- Dot product (`Coord3D.Dot`). -/
def Coord3D.dot (u v : Coord3D) : ℚ :=
  u.x * v.x + u.y * v.y + u.z * v.z

/-- Cross product (`Coord3D.Cross`). -/
def Coord3D.cross (u v : Coord3D) : Coord3D :=
  ⟨u.y * v.z - u.z * v.y, u.z * v.x - u.x * v.z, u.x * v.y - u.y * v.x⟩

/-- Componentwise minimum (`Coord3D.Min`). -/
def Coord3D.cmin (u v : Coord3D) : Coord3D :=
  ⟨min u.x v.x, min u.y v.y, min u.z v.z⟩

/-- Componentwise maximum (`Coord3D.Max`). -/
def Coord3D.cmax (u v : Coord3D) : Coord3D :=
  ⟨max u.x v.x, max u.y v.y, max u.z v.z⟩

/-- For the placement routine only a mesh's vertex multiset matters
(bounding box, uniform scaling, translation), so a mesh is modelled as its
list of vertices. -/
def meshMin : List Coord3D → Coord3D
  | [] => ⟨0, 0, 0⟩
  | v :: vs => vs.foldl Coord3D.cmin v

/-- Componentwise maximum of a mesh's vertices (`Mesh.Max`). -/
def meshMax : List Coord3D → Coord3D
  | [] => ⟨0, 0, 0⟩
  | v :: vs => vs.foldl Coord3D.cmax v

/-- The scale-factor bound computed by `placeInBounds`:
`math.Min(pDiff.X/diff.X, math.Min(pDiff.Y/diff.Y, pDiff.Z/diff.Z))`. -/
def maxScaleFor (placeMin placeMax mn mx : Coord3D) : ℚ :=
  let diff := mx.sub mn
  let pDiff := placeMax.sub placeMin
  min (pDiff.x / diff.x) (min (pDiff.y / diff.y) (pDiff.z / diff.z))

/-- The scale sampled by `placeInBounds`:
`(rand.Float64()*0.9 + 0.1) * maxScale`, with the random draw `uScale`. -/
def sampledScale (placeMin placeMax mn mx : Coord3D) (uScale : ℚ) : ℚ :=
  (uScale * (9/10) + 1/10) * maxScaleFor placeMin placeMax mn mx

/-- `placeInBounds` from create_dataset/scene.go.  `uScale` is the
`rand.Float64()` draw for the scale and `uTrans` the `uniformRandom()`
vector for the translation; both lie in `[0,1)` componentwise.  Note that
the translation is `uTrans.Mul(translateMax.Sub(translateMin))` exactly as
in the source, with no `translateMin` offset added. -/
def placeInBounds (placeMin placeMax : Coord3D) (m : List Coord3D)
    (uScale : ℚ) (uTrans : Coord3D) : List Coord3D :=
  let scale := sampledScale placeMin placeMax (meshMin m) (meshMax m) uScale
  let m2 := m.map (Coord3D.smul scale)
  let translateMin := placeMin.sub (meshMin m2)
  let translateMax := placeMax.sub (meshMax m2)
  let translate := uTrans.mul (translateMax.sub translateMin)
  m2.map translate.add

/-- `RoomLayout`: a rectangular room of the given width and depth with unit
height. -/
structure RoomLayout where
  Width : ℚ
  Depth : ℚ

/-- `RoomLayout.CameraInfo`: position `{Z: 0.5, Y: -Depth/2 + 1e-5}` and
target `{Z: 0.5, Y: Depth/2}` (unset fields are zero in Go). -/
def RoomLayout.CameraInfo (r : RoomLayout) : Coord3D × Coord3D :=
  (⟨0, -r.Depth / 2 + 1/100000, 1/2⟩, ⟨0, r.Depth / 2, 1/2⟩)

/-- The placement box literals constructed by `RoomLayout.PlaceMesh`:
`placeMin = {X: -Width/2}` (so `Y = 0`, `Z = 0`) and
`placeMax = {X: Width/2, Y: Depth/2, Z: 1}`. -/
def RoomLayout.placeBox (r : RoomLayout) : Coord3D × Coord3D :=
  (⟨-r.Width / 2, 0, 0⟩, ⟨r.Width / 2, r.Depth / 2, 1⟩)

/-- `RoomLayout.PlaceMesh`, forwarding the placement box to
`placeInBounds`. -/
def RoomLayout.PlaceMesh (r : RoomLayout) (m : List Coord3D)
    (uScale : ℚ) (uTrans : Coord3D) : List Coord3D :=
  placeInBounds r.placeBox.1 r.placeBox.2 m uScale uTrans

/-- The focus-probability list built by the light loop of `RandomScene`:
one entry `0.3 / float64(numLights)` per light. -/
def focusProbs (numLights : ℕ) : List ℚ :=
  (List.range numLights).map (fun _ => 3/10 / (numLights : ℚ))

/-- A triangle, mirroring `model3d.Triangle` (an ordered triple of corners). -/
structure Tri where
  a : Coord3D
  b : Coord3D
  c : Coord3D
deriving DecidableEq

/-- The corner list of a triangle. -/
def Tri.verts (t : Tri) : List Coord3D := [t.a, t.b, t.c]

/-- The (unnormalized) normal direction of a triangle,
`(b - a) × (c - a)`.  `model3d.Triangle.Normal` returns this vector scaled
to unit length; tests below compare normal directions without the
normalization, which only divides by a positive magnitude. -/
def Tri.rawNormal (t : Tri) : Coord3D :=
  (t.b.sub t.a).cross (t.c.sub t.a)

/-- How many entries of `vs` occur in `target`. -/
def countShared : List Coord3D → List Coord3D → ℕ
  | [], _ => 0
  | v :: vs, target => (if v ∈ target then 1 else 0) + countShared vs target

/-- Two triangles are mesh neighbors when they share an edge, i.e. at least
two corners (`Mesh.Neighbors`). -/
def Tri.sharesEdge (t s : Tri) : Prop := 2 ≤ countShared t.verts s.verts

instance (t s : Tri) : Decidable (t.sharesEdge s) := by
  unfold Tri.sharesEdge
  infer_instance

/-- The near-parallel test `n.Normal().Dot(t.Normal()) > 0.99` of
`CreateBackdrop`, phrased on unnormalized normals: for unit normals the
dot exceeds `0.99` exactly when the raw dot is positive and its square
exceeds `0.99^2 = 9801/10000` times the product of the squared
magnitudes. -/
def coplanar (t s : Tri) : Prop :=
  0 < (t.rawNormal).dot (s.rawNormal) ∧
    9801 * ((t.rawNormal).dot (t.rawNormal) * (s.rawNormal).dot (s.rawNormal)) <
      10000 * ((t.rawNormal).dot (s.rawNormal)) ^ 2

instance (t s : Tri) : Decidable (coplanar t s) := by
  unfold coplanar
  infer_instance

/-- The acceptance test of the neighbor loop in `CreateBackdrop`: a
candidate from `Mesh.Neighbors(t)` (hence distinct from `t` and sharing an
edge) whose normal is near-parallel to `t`'s. -/
def partnerOk (t n : Tri) : Prop := n ≠ t ∧ t.sharesEdge n ∧ coplanar t n

instance (t n : Tri) : Decidable (partnerOk t n) := by
  unfold partnerOk
  infer_instance

/-- The `for _, n := range mesh.Neighbors(t)` search with `break`: the
first remaining triangle accepted by `partnerOk`. -/
def findPartner : Tri → List Tri → Option Tri
  | _, [] => none
  | t, n :: rest => if partnerOk t n then some n else findPartner t rest

/-- `Mesh.Remove`: drop one occurrence of a triangle. -/
def removeTri : List Tri → Tri → List Tri
  | [], _ => []
  | s :: rest, t => if s = t then rest else s :: removeTri rest t

/-- The `mesh.Iterate` loop of `CreateBackdrop`.  Modelled from the spec
and the model3d documentation of the external collaborator `Mesh.Iterate`:
the loop walks a snapshot of the triangles, skipping any triangle already
removed from the working mesh; for each visited triangle it finds its
near-parallel edge-sharing partner, removes both, and emits the pair as a
panel.  (The `none` branch mirrors the malformed-input case, in which the
Go code would remove a nil neighbor and emit a panel containing nil.) -/
def backdropSweep : List Tri → List Tri → List (List Tri)
  | [], _ => []
  | t :: ts, rem =>
    if t ∈ rem then
      match findPartner t rem with
      | some n => [t, n] :: backdropSweep ts (removeTri (removeTri rem n) t)
      | none => [t] :: backdropSweep ts (removeTri rem t)
    else
      backdropSweep ts rem

/-- Modelled from the spec: `model3d.NewMeshRect` (an external
collaborator) builds the closed six-face box mesh spanning `mn` to `mx`,
each rectangular face split into two coplanar triangles, with outward,
consistently oriented normals. -/
def rectTris (mn mx : Coord3D) : List Tri :=
  [⟨⟨mn.x, mn.y, mn.z⟩, ⟨mn.x, mx.y, mn.z⟩, ⟨mx.x, mx.y, mn.z⟩⟩,
   ⟨⟨mn.x, mn.y, mn.z⟩, ⟨mx.x, mx.y, mn.z⟩, ⟨mx.x, mn.y, mn.z⟩⟩,
   ⟨⟨mn.x, mn.y, mx.z⟩, ⟨mx.x, mn.y, mx.z⟩, ⟨mx.x, mx.y, mx.z⟩⟩,
   ⟨⟨mn.x, mn.y, mx.z⟩, ⟨mx.x, mx.y, mx.z⟩, ⟨mn.x, mx.y, mx.z⟩⟩,
   ⟨⟨mn.x, mn.y, mn.z⟩, ⟨mx.x, mn.y, mn.z⟩, ⟨mx.x, mn.y, mx.z⟩⟩,
   ⟨⟨mn.x, mn.y, mn.z⟩, ⟨mx.x, mn.y, mx.z⟩, ⟨mn.x, mn.y, mx.z⟩⟩,
   ⟨⟨mn.x, mx.y, mn.z⟩, ⟨mn.x, mx.y, mx.z⟩, ⟨mx.x, mx.y, mx.z⟩⟩,
   ⟨⟨mn.x, mx.y, mn.z⟩, ⟨mx.x, mx.y, mx.z⟩, ⟨mx.x, mx.y, mn.z⟩⟩,
   ⟨⟨mn.x, mn.y, mn.z⟩, ⟨mn.x, mn.y, mx.z⟩, ⟨mn.x, mx.y, mx.z⟩⟩,
   ⟨⟨mn.x, mn.y, mn.z⟩, ⟨mn.x, mx.y, mx.z⟩, ⟨mn.x, mx.y, mn.z⟩⟩,
   ⟨⟨mx.x, mn.y, mn.z⟩, ⟨mx.x, mx.y, mn.z⟩, ⟨mx.x, mx.y, mx.z⟩⟩,
   ⟨⟨mx.x, mn.y, mn.z⟩, ⟨mx.x, mx.y, mx.z⟩, ⟨mx.x, mn.y, mx.z⟩⟩]

/-- `RoomLayout.CreateBackdrop`: build the room box mesh and decompose it
into wall panels. -/
def RoomLayout.CreateBackdrop (r : RoomLayout) : List (List Tri) :=
  let ts := rectTris ⟨-r.Width / 2, -r.Depth / 2, 0⟩ ⟨r.Width / 2, r.Depth / 2, 1⟩
  backdropSweep ts ts

/-- All vertices of a triangle list, in order. -/
def trisVerts : List Tri → List Coord3D
  | [] => []
  | t :: ts => t.verts ++ trisVerts ts

/-- All vertices appearing in a panel list. -/
def panelsVerts : List (List Tri) → List Coord3D
  | [] => []
  | p :: ps => trisVerts p ++ panelsVerts ps

/-- The axis scaling relating a `Width`/`Depth` room box to the reference
box: `x` and `y` are stretched independently, `z` is kept. -/
def Coord3D.dscale (s t : ℚ) (v : Coord3D) : Coord3D := ⟨s * v.x, t * v.y, v.z⟩

/-- Mapping a triangle through a coordinate map (`Mesh.MapCoords`). -/
def Tri.map (f : Coord3D → Coord3D) (t : Tri) : Tri := ⟨f t.a, f t.b, f t.c⟩

/-- A vector lying on one of the coordinate axes. -/
def axisAligned (v : Coord3D) : Prop :=
  (v.y = 0 ∧ v.z = 0) ∨ (v.x = 0 ∧ v.z = 0) ∨ (v.x = 0 ∧ v.y = 0)

/-- The reference room box: width and depth 2, height 1. -/
def refTris : List Tri := rectTris ⟨-1, -1, 0⟩ ⟨1, 1, 1⟩

/-- A pixel color, mirroring `render3d.Color` (three channels). -/
structure Color where
  r : ℚ
  g : ℚ
  b : ℚ
deriving DecidableEq

/-- `render3d.Color.Sum`. -/
def Color.channelSum (c : Color) : ℚ := c.r + c.g + c.b

/-- Insert a value into an ascending list. -/
def insertSorted (x : ℚ) : List ℚ → List ℚ
  | [] => [x]
  | y :: ys => if x ≤ y then x :: y :: ys else y :: insertSorted x ys

/-- Ascending sort (`sort.Float64s` sorts in place; only the resulting
sorted value list matters, which is algorithm-independent). -/
def sortAsc (l : List ℚ) : List ℚ := l.foldr insertSorted []

/-- `quantileBrightness`: average each pixel's channels, sort ascending,
return the entry at index `int(float64(len)*0.8)`, i.e. `⌊0.8·len⌋`. -/
def quantileBrightness (img : List Color) : ℚ :=
  let bs := img.map (fun c => c.channelSum / 3)
  (sortAsc bs).getD (4 * img.length / 5) 0

/-- The clamped target brightness of `BrightnessScale`:
`math.Min(0.9, math.Max(0.1, rand.NormFloat64()*0.1+0.3))`, with `g` the
normal draw. -/
def brightnessTarget (g : ℚ) : ℚ := min (9/10) (max (1/10) (g * (1/10) + 3/10))

/-- `BrightnessScale`: `max(1.0, target/median)` with
`median = max(1e-5, quantileBrightness(img))`. -/
def BrightnessScale (g : ℚ) (img : List Color) : ℚ :=
  max 1 (brightnessTarget g / max (1/100000) (quantileBrightness img))

/-- A tensor, mirroring `nn.Tensor` (row-major data of size
`Height*Width*Depth`). -/
structure Tensor where
  Height : ℕ
  Width : ℕ
  Depth : ℕ
  Data : List ℚ
deriving DecidableEq

/-- `nn.NewTensor`: a zero-filled tensor. -/
def NewTensor (h w d : ℕ) : Tensor := ⟨h, w, d, List.replicate (h * w * d) 0⟩

/-- The loop of `ReLU.Apply`: for each input entry `x`, write `x` into the
result slot when `x > 0`, otherwise leave the zero already there.  (If the
input data were longer than the result, the Go code would panic with an
index out of range; that case is unreachable for well-formed tensors.) -/
def reluWrite : List ℚ → List ℚ → List ℚ
  | [], res => res
  | _ :: _, [] => []
  | x :: xs, r :: rs => (if 0 < x then x else r) :: reluWrite xs rs

/-- `ReLU.Apply`: allocate a zero tensor of the same shape and copy the
positive entries over. -/
def reluApply (t : Tensor) : Tensor :=
  { Height := t.Height, Width := t.Width, Depth := t.Depth,
    Data := reluWrite t.Data (NewTensor t.Height t.Width t.Depth).Data }

/-- Proof device: a triangle list in which each consecutive pair is a
mutually acceptable panel and the second element of each pair does not
recur later. -/
def PairedOk : List Tri → Prop
  | [] => True
  | [_] => False
  | t0 :: t1 :: rest => partnerOk t0 t1 ∧ t1 ∉ rest ∧ PairedOk rest

/-- Proof device: group a list into consecutive pairs. -/
def pairPanels : List Tri → List (List Tri)
  | t0 :: t1 :: rest => [t0, t1] :: pairPanels rest
  | _ => []

/-!  ## Theorems -/

theorem coplanar_of_eq_normals (t s : Tri) (heq : t.rawNormal = s.rawNormal)
    (hpos : 0 < (t.rawNormal).dot (t.rawNormal)) : coplanar t s := by
  constructor
  · rw [← heq]
    exact hpos
  · rw [← heq]
    nlinarith [hpos]

theorem sweep_adjacent_pairs : ∀ l : List Tri, PairedOk l → backdropSweep l l = pairPanels l
  | [], _ => rfl
  | [_], h => absurd h (by simp [PairedOk])
  | t0 :: t1 :: rest, h => by
    obtain ⟨hok, hout, hrest⟩ := h
    have hne : t0 ≠ t1 := fun he => hok.1 he.symm
    have hfind : findPartner t0 (t0 :: t1 :: rest) = some t1 := by
      rw [findPartner, if_neg (fun hc => hc.1 rfl), findPartner, if_pos hok]
    have hrem1 : removeTri (t0 :: t1 :: rest) t1 = t0 :: rest := by
      rw [removeTri, if_neg hne, removeTri, if_pos rfl]
    have hrem2 : removeTri (t0 :: rest) t0 = rest := by
      rw [removeTri, if_pos rfl]
    rw [backdropSweep, if_pos (List.mem_cons_self t0 (t1 :: rest)), hfind]
    show [t0, t1] :: backdropSweep (t1 :: rest) (removeTri (removeTri (t0 :: t1 :: rest) t1) t0) =
      pairPanels (t0 :: t1 :: rest)
    rw [hrem1, hrem2, backdropSweep, if_neg hout, sweep_adjacent_pairs rest hrest]
    rfl

theorem panelsVerts_pairPanels : ∀ l : List Tri, PairedOk l →
    panelsVerts (pairPanels l) = trisVerts l
  | [], _ => rfl
  | [_], h => absurd h (by simp [PairedOk])
  | t0 :: t1 :: rest, h => by
    rw [pairPanels, panelsVerts, panelsVerts_pairPanels rest h.2.2]
    simp [trisVerts]

theorem pairPanels_length : ∀ l : List Tri, PairedOk l →
    l.length = 2 * (pairPanels l).length
  | [], _ => rfl
  | [_], h => absurd h (by simp [PairedOk])
  | t0 :: t1 :: rest, h => by
    rw [pairPanels]
    have ih := pairPanels_length rest h.2.2
    simp only [List.length_cons] at *
    omega

theorem pairPanels_mem_length : ∀ l : List Tri, PairedOk l →
    ∀ p ∈ pairPanels l, p.length = 2
  | [], _ => by simp [pairPanels]
  | [_], h => absurd h (by simp [PairedOk])
  | t0 :: t1 :: rest, h => by
    intro p hp
    rw [pairPanels] at hp
    rcases List.mem_cons.mp hp with he | hm
    · rw [he]
      rfl
    · exact pairPanels_mem_length rest h.2.2 p hm

set_option maxHeartbeats 1000000 in
theorem pairedOk_rectTris (mn mx : Coord3D)
    (hx : mn.x < mx.x) (hy : mn.y < mx.y) (hz : mn.z < mx.z) :
    PairedOk (rectTris mn mx) := by
  obtain ⟨x0, y0, z0⟩ := mn
  obtain ⟨x1, y1, z1⟩ := mx
  simp only at hx hy hz
  have hX : (0:ℚ) < x1 - x0 := by linarith
  have hY : (0:ℚ) < y1 - y0 := by linarith
  have hZ : (0:ℚ) < z1 - z0 := by linarith
  have hxne : ¬(x0 = x1) := ne_of_lt hx
  have hyne : ¬(y0 = y1) := ne_of_lt hy
  have hzne : ¬(z0 = z1) := ne_of_lt hz
  have hxne' : ¬(x1 = x0) := fun h => hxne h.symm
  have hyne' : ¬(y1 = y0) := fun h => hyne h.symm
  have hzne' : ¬(z1 = z0) := fun h => hzne h.symm
  rw [rectTris]
  refine ⟨⟨?_, ?_, coplanar_of_eq_normals _ _ ?_ ?_⟩, ?_,
          ⟨?_, ?_, coplanar_of_eq_normals _ _ ?_ ?_⟩, ?_,
          ⟨?_, ?_, coplanar_of_eq_normals _ _ ?_ ?_⟩, ?_,
          ⟨?_, ?_, coplanar_of_eq_normals _ _ ?_ ?_⟩, ?_,
          ⟨?_, ?_, coplanar_of_eq_normals _ _ ?_ ?_⟩, ?_,
          ⟨?_, ?_, coplanar_of_eq_normals _ _ ?_ ?_⟩, ?_, trivial⟩ <;>
    first
      | (simp [Tri.mk.injEq, Coord3D.mk.injEq, hxne, hyne, hzne, hxne', hyne', hzne']
         done)
      | (norm_num [Tri.sharesEdge, countShared, Tri.verts, Coord3D.mk.injEq,
          hxne, hyne, hzne, hxne', hyne', hzne']
         done)
      | (simp only [Tri.rawNormal, Coord3D.cross, Coord3D.sub, Coord3D.mk.injEq]
         refine ⟨by ring, by ring, by ring⟩)
      | (simp only [Tri.rawNormal, Coord3D.cross, Coord3D.sub, Coord3D.dot]
         nlinarith [mul_pos hX hY, mul_pos hY hZ, mul_pos hX hZ,
           mul_pos (mul_pos hX hY) (mul_pos hX hY),
           mul_pos (mul_pos hY hZ) (mul_pos hY hZ),
           mul_pos (mul_pos hX hZ) (mul_pos hX hZ)])

/-- Claim C4: for every RoomLayout with positive Width and Depth,
CreateBackdrop returns exactly 6 panels of exactly 2 triangles each, and
the vertices appearing in the panels are exactly the vertices of the
original six-face box mesh spanning
(-Width/2, -Depth/2, 0) to (Width/2, Depth/2, 1). -/
theorem createBackdrop_six_panels (w d : ℚ) (hw : 0 < w) (hd : 0 < d) :
    ((RoomLayout.mk w d).CreateBackdrop).length = 6 ∧
    (∀ p ∈ (RoomLayout.mk w d).CreateBackdrop, p.length = 2) ∧
    (∀ v : Coord3D, v ∈ panelsVerts ((RoomLayout.mk w d).CreateBackdrop) ↔
      v ∈ trisVerts (rectTris ⟨-w / 2, -d / 2, 0⟩ ⟨w / 2, d / 2, 1⟩)) := by
  have hpo : PairedOk (rectTris ⟨-w / 2, -d / 2, 0⟩ ⟨w / 2, d / 2, 1⟩) :=
    pairedOk_rectTris _ _ (show -w / 2 < w / 2 by linarith)
      (show -d / 2 < d / 2 by linarith) (show (0:ℚ) < 1 by norm_num)
  have hsweep : (RoomLayout.mk w d).CreateBackdrop =
      pairPanels (rectTris ⟨-w / 2, -d / 2, 0⟩ ⟨w / 2, d / 2, 1⟩) :=
    sweep_adjacent_pairs _ hpo
  refine ⟨?_, ?_, ?_⟩
  · rw [hsweep]
    have h12 : (rectTris ⟨-w / 2, -d / 2, 0⟩ ⟨w / 2, d / 2, 1⟩).length = 12 := rfl
    have h2 := pairPanels_length _ hpo
    omega
  · rw [hsweep]
    exact pairPanels_mem_length _ hpo
  · intro v
    rw [hsweep, panelsVerts_pairPanels _ hpo]

/-- Witness for C4 at Width 1, Depth 10. -/
theorem createBackdrop_six_panels_witness :
    ((RoomLayout.mk 1 10).CreateBackdrop).length = 6 ∧
    (∀ p ∈ (RoomLayout.mk 1 10).CreateBackdrop, p.length = 2) ∧
    (∀ v : Coord3D, v ∈ panelsVerts ((RoomLayout.mk 1 10).CreateBackdrop) ↔
      v ∈ trisVerts (rectTris ⟨-1 / 2, -10 / 2, 0⟩ ⟨1 / 2, 10 / 2, 1⟩)) :=
  createBackdrop_six_panels 1 10 (by norm_num) (by norm_num)

/-- Claim C1 (refuting evaluation): `placeInBounds` does not keep the mesh
inside the target box.  For the mesh with bounding box
(-2,-2,-2)..(0,0,0), the target box (0,0,0)..(1,1,1), scale draw 1/2 and
translation draw (0,0,0), the x-coordinate of the output's bounding-box
minimum is -11/20, strictly below the target minimum 0: the code's
translation `uniformRandom().Mul(translateMax.Sub(translateMin))` omits
the `translateMin` offset, so the sampled translation can fall outside
the interval [placeMin - newMin, placeMax - newMax]. -/
theorem placeInBounds_escapes_target :
    (meshMin (placeInBounds ⟨0, 0, 0⟩ ⟨1, 1, 1⟩ [⟨-2, -2, -2⟩, ⟨0, 0, 0⟩]
      (1/2) ⟨0, 0, 0⟩)).x < (Coord3D.mk 0 0 0).x := by
  norm_num [placeInBounds, sampledScale, maxScaleFor, meshMin, meshMax,
    Coord3D.sub, Coord3D.smul, Coord3D.mul, Coord3D.add, Coord3D.cmin, Coord3D.cmax,
    min_def, max_def, List.foldl_cons, List.foldl_nil]

/-- Claim C2 (counterexample): at Width 1, Depth 10 the `placeMin` passed
to `placeInBounds` is not the spec's (-Width/2, -Depth/2, 0): its y
component is 0, not -5. -/
theorem placeBox_min_ne_claimed :
    (RoomLayout.placeBox ⟨1, 10⟩).1 ≠ ⟨-1 / 2, -5, 0⟩ := by
  norm_num [RoomLayout.placeBox, Coord3D.mk.injEq]

/-- Claim C2 (amended): `PlaceMesh` passes the placement box
placeMin = (-Width/2, 0, 0), placeMax = (Width/2, Depth/2, 1) to
`placeInBounds` — the y lower bound is 0, not -Depth/2, so objects are
placed in the far half of the room. -/
theorem placeMesh_box_spec (r : RoomLayout) (m : List Coord3D) (u : ℚ) (v : Coord3D) :
    r.placeBox.1 = ⟨-r.Width / 2, 0, 0⟩ ∧
    r.placeBox.2 = ⟨r.Width / 2, r.Depth / 2, 1⟩ ∧
    r.PlaceMesh m u v =
      placeInBounds ⟨-r.Width / 2, 0, 0⟩ ⟨r.Width / 2, r.Depth / 2, 1⟩ m u v :=
  ⟨rfl, rfl, rfl⟩

/-- Claim C3 (counterexample): `placeInBounds` performs no degeneracy
check.  On a mesh whose bounding box has zero extent on the z axis it
still returns a (3-vertex) mesh instead of propagating a failure: the Go
code divides by the zero extent unguarded (IEEE yields +Inf, which the
min simply discards) and carries on. -/
theorem placeInBounds_flat_mesh_returns :
    (placeInBounds ⟨0, 0, 0⟩ ⟨1, 1, 1⟩ [⟨0, 0, 0⟩, ⟨1, 0, 0⟩, ⟨0, 1, 0⟩]
      0 ⟨0, 0, 0⟩).length = 3 := by
  simp [placeInBounds]

/-- Claim C3 (amended): placement never rejects a mesh — degenerate or
not, `placeInBounds` always produces a mesh with the same number of
vertices as its input; there is no guard before the per-axis division. -/
theorem placeInBounds_total (pmin pmax : Coord3D) (m : List Coord3D)
    (u : ℚ) (v : Coord3D) :
    (placeInBounds pmin pmax m u v).length = m.length := by
  simp [placeInBounds]

theorem sum_const_range (n : ℕ) (c : ℚ) :
    ((List.range n).map (fun _ => c)).sum = n * c := by
  induction n with
  | zero => simp
  | succ k ih =>
    rw [List.range_succ]
    simp [ih]
    ring

/-- Claim C5: for every light count L in [1,5], the focus-probability
list has length L, every entry equals 0.3/L, and the entries sum to
exactly 0.3. -/
theorem focusProbs_spec (L : ℕ) (h1 : 1 ≤ L) (h5 : L ≤ 5) :
    (focusProbs L).length = L ∧ (∀ p ∈ focusProbs L, p = 3/10 / (L : ℚ)) ∧
    (focusProbs L).sum = 3/10 := by
  refine ⟨by simp [focusProbs], ?_, ?_⟩
  · intro p hp
    simp only [focusProbs, List.mem_map] at hp
    obtain ⟨i, _, hi⟩ := hp
    exact hi.symm
  · rw [focusProbs, sum_const_range]
    have hL : (L : ℚ) ≠ 0 := Nat.cast_ne_zero.mpr (by omega)
    field_simp
    ring

/-- Witness for C5 at L = 3. -/
theorem focusProbs_spec_witness :
    (focusProbs 3).length = 3 ∧ (∀ p ∈ focusProbs 3, p = 3/10 / (3 : ℚ)) ∧
    (focusProbs 3).sum = 3/10 :=
  focusProbs_spec 3 (by norm_num) (by norm_num)

/-- Claim C6: for bounding boxes with positive per-axis extents, the
scale bound is the minimum of the per-axis extent ratios, and for any
scale draw in [0,1] the sampled scale lies between a tenth of that bound
and the bound itself. -/
theorem sampledScale_bounds (pmin pmax mn mx : Coord3D) (u : ℚ)
    (hmx : mn.x < mx.x) (hmy : mn.y < mx.y) (hmz : mn.z < mx.z)
    (hpx : pmin.x < pmax.x) (hpy : pmin.y < pmax.y) (hpz : pmin.z < pmax.z)
    (hu0 : 0 ≤ u) (hu1 : u ≤ 1) :
    maxScaleFor pmin pmax mn mx =
      min ((pmax.x - pmin.x) / (mx.x - mn.x))
        (min ((pmax.y - pmin.y) / (mx.y - mn.y)) ((pmax.z - pmin.z) / (mx.z - mn.z))) ∧
    1/10 * maxScaleFor pmin pmax mn mx ≤ sampledScale pmin pmax mn mx u ∧
    sampledScale pmin pmax mn mx u ≤ maxScaleFor pmin pmax mn mx := by
  have heq : maxScaleFor pmin pmax mn mx =
      min ((pmax.x - pmin.x) / (mx.x - mn.x))
        (min ((pmax.y - pmin.y) / (mx.y - mn.y)) ((pmax.z - pmin.z) / (mx.z - mn.z))) := rfl
  have hpos : 0 < maxScaleFor pmin pmax mn mx := by
    rw [heq]
    exact lt_min (div_pos (by linarith) (by linarith))
      (lt_min (div_pos (by linarith) (by linarith)) (div_pos (by linarith) (by linarith)))
  have hfac0 : 0 ≤ u * (9/10) := mul_nonneg hu0 (by norm_num)
  have hlo : (1:ℚ)/10 ≤ u * (9/10) + 1/10 := by linarith
  have hhi : u * (9/10) + 1/10 ≤ 1 := by linarith
  refine ⟨heq, ?_, ?_⟩
  · calc 1/10 * maxScaleFor pmin pmax mn mx
        ≤ (u * (9/10) + 1/10) * maxScaleFor pmin pmax mn mx :=
          mul_le_mul_of_nonneg_right hlo hpos.le
      _ = sampledScale pmin pmax mn mx u := rfl
  · calc sampledScale pmin pmax mn mx u
        = (u * (9/10) + 1/10) * maxScaleFor pmin pmax mn mx := rfl
      _ ≤ 1 * maxScaleFor pmin pmax mn mx := mul_le_mul_of_nonneg_right hhi hpos.le
      _ = maxScaleFor pmin pmax mn mx := one_mul _

/-- Witness for C6 at the spec's example: mesh box (0,0,0)..(2,2,2) into
target box (0,0,0)..(1,4,1), scale draw 1/2: the scale bound is 1/2 and
the sampled scale lies in [1/20, 1/2]. -/
theorem sampledScale_bounds_witness :
    maxScaleFor ⟨0, 0, 0⟩ ⟨1, 4, 1⟩ ⟨0, 0, 0⟩ ⟨2, 2, 2⟩ = 1/2 ∧
    1/20 ≤ sampledScale ⟨0, 0, 0⟩ ⟨1, 4, 1⟩ ⟨0, 0, 0⟩ ⟨2, 2, 2⟩ (1/2) ∧
    sampledScale ⟨0, 0, 0⟩ ⟨1, 4, 1⟩ ⟨0, 0, 0⟩ ⟨2, 2, 2⟩ (1/2) ≤ 1/2 := by
  have h := sampledScale_bounds ⟨0, 0, 0⟩ ⟨1, 4, 1⟩ ⟨0, 0, 0⟩ ⟨2, 2, 2⟩ (1/2)
    (by norm_num) (by norm_num) (by norm_num) (by norm_num) (by norm_num) (by norm_num)
    (by norm_num) (by norm_num)
  have hms : maxScaleFor ⟨0, 0, 0⟩ ⟨1, 4, 1⟩ ⟨0, 0, 0⟩ ⟨2, 2, 2⟩ = 1/2 := by
    rw [h.1]
    norm_num [min_def]
  refine ⟨hms, ?_, ?_⟩
  · have h2 := h.2.1
    rw [hms] at h2
    linarith
  · have h2 := h.2.2
    rw [hms] at h2
    exact h2

/-- Claim C7 (counterexample): at Width 1, Depth 1/100000 — a layout with
positive Width and Depth — the camera position and target coincide, so
"position and target always differ" fails as stated. -/
theorem cameraInfo_coincides_at_tiny_depth :
    (0:ℚ) < 1/100000 ∧
    (RoomLayout.CameraInfo ⟨1, 1/100000⟩).1 = (RoomLayout.CameraInfo ⟨1, 1/100000⟩).2 := by
  constructor
  · norm_num
  · norm_num [RoomLayout.CameraInfo, Coord3D.mk.injEq]

/-- Claim C7 (amended): for every layout with positive Width and Depth,
CameraInfo returns position (0, -Depth/2 + 1e-5, 0.5) and target
(0, Depth/2, 0.5) — at Width 1, Depth 10 these are (0, -5+1e-5, 0.5) and
(0, 5, 0.5) — and position and target differ whenever Depth differs from
the epsilon 1e-5. -/
theorem cameraInfo_spec (w d : ℚ) (hw : 0 < w) (hd : 0 < d) :
    (RoomLayout.CameraInfo ⟨w, d⟩).1 = ⟨0, -d / 2 + 1/100000, 1/2⟩ ∧
    (RoomLayout.CameraInfo ⟨w, d⟩).2 = ⟨0, d / 2, 1/2⟩ ∧
    (RoomLayout.CameraInfo ⟨1, 10⟩).1 = ⟨0, -5 + 1/100000, 1/2⟩ ∧
    (RoomLayout.CameraInfo ⟨1, 10⟩).2 = ⟨0, 5, 1/2⟩ ∧
    (d ≠ 1/100000 →
      (RoomLayout.CameraInfo ⟨w, d⟩).1 ≠ (RoomLayout.CameraInfo ⟨w, d⟩).2) := by
  refine ⟨rfl, rfl, by norm_num [RoomLayout.CameraInfo, Coord3D.mk.injEq],
    by norm_num [RoomLayout.CameraInfo, Coord3D.mk.injEq], ?_⟩
  intro hne heq
  simp only [RoomLayout.CameraInfo, Coord3D.mk.injEq] at heq
  exact hne (by linarith [heq.2.1])

/-- Witness for C7 at Width 1, Depth 10. -/
theorem cameraInfo_spec_witness :
    (RoomLayout.CameraInfo ⟨1, 10⟩).1 = ⟨0, -(10:ℚ) / 2 + 1/100000, 1/2⟩ ∧
    (RoomLayout.CameraInfo ⟨1, 10⟩).2 = ⟨0, (10:ℚ) / 2, 1/2⟩ ∧
    (RoomLayout.CameraInfo ⟨1, 10⟩).1 ≠ (RoomLayout.CameraInfo ⟨1, 10⟩).2 := by
  have h := cameraInfo_spec 1 10 (by norm_num) (by norm_num)
  exact ⟨h.1, h.2.1, h.2.2.2.2 (by norm_num)⟩

/-- Claim C8: the brightness scale is always at least 1 (the normalizer
never darkens), and whenever the image's 80th-percentile brightness is at
least the sampled target, the scale is exactly 1. -/
theorem brightnessScale_spec (g : ℚ) (img : List Color) :
    1 ≤ BrightnessScale g img ∧
    (brightnessTarget g ≤ quantileBrightness img → BrightnessScale g img = 1) := by
  constructor
  · exact le_max_left 1 _
  · intro h
    have htl : (1:ℚ)/10 ≤ brightnessTarget g :=
      le_min (by norm_num) (le_max_left _ _)
    have hq : (1:ℚ)/100000 < quantileBrightness img :=
      lt_of_lt_of_le (by norm_num) (le_trans htl h)
    have hqpos : 0 < quantileBrightness img := lt_trans (by norm_num) hq
    have hmed : max (1/100000) (quantileBrightness img) = quantileBrightness img :=
      max_eq_right hq.le
    rw [BrightnessScale, hmed]
    exact max_eq_left (div_le_one_of_le₀ h hqpos.le)

/-- Witness for C8: a single-pixel gray image of brightness 1/2 with
normal draw 0 (target 3/10) is already bright enough, so the scale is
exactly 1. -/
theorem brightnessScale_spec_witness :
    1 ≤ BrightnessScale 0 [⟨1/2, 1/2, 1/2⟩] ∧ BrightnessScale 0 [⟨1/2, 1/2, 1/2⟩] = 1 := by
  have h := brightnessScale_spec 0 [⟨1/2, 1/2, 1/2⟩]
  refine ⟨h.1, h.2 ?_⟩
  norm_num [brightnessTarget, quantileBrightness, sortAsc, insertSorted,
    Color.channelSum, min_def, max_def]

theorem insertSorted_self (v : ℚ) (k : ℕ) :
    insertSorted v (List.replicate k v) = List.replicate (k + 1) v := by
  cases k with
  | zero => rfl
  | succ n =>
    rw [List.replicate_succ, insertSorted, if_pos (le_refl v)]
    rw [List.replicate_succ, List.replicate_succ]

theorem sortAsc_replicate (n : ℕ) (v : ℚ) :
    sortAsc (List.replicate n v) = List.replicate n v := by
  induction n with
  | zero => rfl
  | succ k ih =>
    rw [List.replicate_succ, sortAsc, List.foldr_cons]
    show insertSorted v (sortAsc (List.replicate k v)) = _
    rw [ih, insertSorted_self, List.replicate_succ]

theorem getD_all_eq (l : List ℚ) (v : ℚ) (hall : ∀ x ∈ l, x = v) :
    ∀ i, i < l.length → l.getD i 0 = v := by
  induction l with
  | nil => intro i hi; simp at hi
  | cons a as ih =>
    intro i hi
    cases i with
    | zero => simpa using hall a (by simp)
    | succ j =>
      rw [List.getD_cons_succ]
      exact ih (fun x hx => hall x (by simp [hx])) j (by simpa using hi)

/-- Claim C9: on a uniform all-gray nonempty image in which every pixel
has all channels equal to v, the 80th-percentile brightness is exactly v
(channel averaging, ascending sort and the index floor(0.8*count) all
collapse in the constant case). -/
theorem quantileBrightness_uniform (n : ℕ) (v : ℚ) (hn : 0 < n) :
    quantileBrightness (List.replicate n ⟨v, v, v⟩) = v := by
  rw [quantileBrightness]
  simp only [List.map_replicate, List.length_replicate]
  have hb : (Color.channelSum ⟨v, v, v⟩) / 3 = v := by
    rw [Color.channelSum]
    ring
  rw [hb, sortAsc_replicate]
  exact getD_all_eq _ _ (fun x hx => List.eq_of_mem_replicate hx) _
    (by simp only [List.length_replicate]; omega)

/-- Witness for C9 on a 5-pixel gray image of value 7/10. -/
theorem quantileBrightness_uniform_witness :
    quantileBrightness (List.replicate 5 ⟨7/10, 7/10, 7/10⟩) = 7/10 :=
  quantileBrightness_uniform 5 (7/10) (by norm_num)

theorem reluWrite_replicate : ∀ xs : List ℚ,
    reluWrite xs (List.replicate xs.length 0) = xs.map (fun x => if 0 < x then x else 0)
  | [] => rfl
  | x :: xs => by
    rw [List.length_cons, List.replicate_succ, reluWrite, reluWrite_replicate xs]
    rfl

/-- Claim C10: for a well-formed tensor (data length matching the shape),
ReLU.Apply preserves the shape, maps every entry to itself when strictly
positive and to 0 otherwise, yields only nonnegative entries, and is
idempotent. -/
theorem relu_apply_spec (t : Tensor)
    (hlen : t.Data.length = t.Height * t.Width * t.Depth) :
    (reluApply t).Height = t.Height ∧ (reluApply t).Width = t.Width ∧
    (reluApply t).Depth = t.Depth ∧
    (reluApply t).Data = t.Data.map (fun x => if 0 < x then x else 0) ∧
    (∀ q ∈ (reluApply t).Data, 0 ≤ q) ∧
    reluApply (reluApply t) = reluApply t := by
  obtain ⟨H, W, D, dat⟩ := t
  simp only at hlen
  have hdata : ∀ l : List ℚ, l.length = H * W * D →
      (reluApply ⟨H, W, D, l⟩).Data = l.map (fun x => if 0 < x then x else 0) := by
    intro l hl
    show reluWrite l (List.replicate (H * W * D) 0) = _
    rw [← hl, reluWrite_replicate]
  have h1 := hdata dat hlen
  refine ⟨rfl, rfl, rfl, h1, ?_, ?_⟩
  · intro q hq
    rw [h1] at hq
    obtain ⟨x, _, hx⟩ := List.mem_map.mp hq
    rw [← hx]
    by_cases h : 0 < x
    · rw [if_pos h]
      exact h.le
    · rw [if_neg h]
  · have hT : reluApply ⟨H, W, D, dat⟩ =
        ⟨H, W, D, dat.map (fun x => if 0 < x then x else 0)⟩ := by
      rw [← h1]
      rfl
    rw [hT]
    have hlen2 : (dat.map (fun x : ℚ => if 0 < x then x else 0)).length = H * W * D := by
      rw [List.length_map]
      exact hlen
    have h2 := hdata (dat.map (fun x => if 0 < x then x else 0)) hlen2
    have hcollapse : (dat.map (fun x : ℚ => if 0 < x then x else 0)).map
        (fun x => if 0 < x then x else 0) = dat.map (fun x => if 0 < x then x else 0) := by
      rw [List.map_map]
      apply List.map_congr_left
      intro a _
      show (if 0 < (if 0 < a then a else 0) then (if 0 < a then a else 0) else 0) =
        if 0 < a then a else 0
      by_cases h : 0 < a
      · rw [if_pos h]
        rw [if_pos h]
      · rw [if_neg h]
        norm_num
    have h3 : (reluApply ⟨H, W, D, dat.map (fun x : ℚ => if 0 < x then x else 0)⟩).Data =
        dat.map (fun x => if 0 < x then x else 0) := h2.trans hcollapse
    calc reluApply (⟨H, W, D, dat.map (fun x : ℚ => if 0 < x then x else 0)⟩ : Tensor)
        = ⟨H, W, D,
            (reluApply (⟨H, W, D, dat.map (fun x : ℚ => if 0 < x then x else 0)⟩ : Tensor)).Data⟩ :=
          rfl
      _ = ⟨H, W, D, dat.map (fun x : ℚ => if 0 < x then x else 0)⟩ := by rw [h3]

/-- Witness for C10 on the 1x1x2 tensor with data [-1, 3]. -/
theorem relu_apply_spec_witness :
    (reluApply ⟨1, 1, 2, [-1, 3]⟩).Height = 1 ∧
    (reluApply ⟨1, 1, 2, [-1, 3]⟩).Width = 1 ∧
    (reluApply ⟨1, 1, 2, [-1, 3]⟩).Depth = 2 ∧
    (reluApply ⟨1, 1, 2, [-1, 3]⟩).Data =
      [-1, 3].map (fun x : ℚ => if 0 < x then x else 0) ∧
    (∀ q ∈ (reluApply ⟨1, 1, 2, [-1, 3]⟩).Data, 0 ≤ q) ∧
    reluApply (reluApply ⟨1, 1, 2, [-1, 3]⟩) = reluApply ⟨1, 1, 2, [-1, 3]⟩ :=
  relu_apply_spec ⟨1, 1, 2, [-1, 3]⟩ (by norm_num)

end Polish
